import Mathlib

/-
Shallow embedding of `luthier_functions.py` (LuthierToolbox).

Modelling conventions:
* Python `float` values and arithmetic are modelled as exact rationals (`ℚ`);
  every concrete input appearing in the theorems below is chosen so that the
  float computation and the exact rational computation agree.
* Python `fractions.Fraction` is modelled as `ℚ` (both are normalized
  rationals); the constructor `Fraction(n, d)` is modelled as `mkRat n d`.
* Python `decimal.Decimal` values (used by `calculate_spacing` at context
  precision 6) are modelled as exact rationals; every concrete input used in
  the theorems keeps all intermediate values within 6 significant digits, so
  the Decimal computation is exact and agrees with `ℚ`.
* A Python call that raises an exception (`NameError` on the unbound
  `unit_map` when the regex does not match, `IndexError` on `string_gauges[0]`
  for an empty list, `decimal.DivisionByZero`, `ZeroDivisionError` on float
  division by zero, `ValueError`/`ZeroDivisionError` inside `float`/`Fraction`
  construction) never returns a value; such calls are modelled as `none`.
* `2 ** (fret_number / 12)` is real exponentiation, so the fretboard
  functions are modelled over `ℝ` (hence noncomputable).
-/

/-- Python `round` on an exact rational: nearest integer, ties to even
(implemented on the numerator/denominator so that it evaluates by `decide`:
`f` is the floor of `q` and `rem = q.num - f * q.den` compares the fractional
part `rem / q.den` of `q` against `1/2`). -/
def pyRound (q : ℚ) : ℤ :=
  let d : ℤ := (q.den : ℤ)
  let f : ℤ := q.num.fdiv d
  let rem : ℤ := q.num - f * d
  if 2 * rem < d then f
  else if d < 2 * rem then f + 1
  else if f % 2 = 0 then f else f + 1

/-- Python `int()` on a rational (`int(Fraction)`): truncation toward zero. -/
def pyInt (q : ℚ) : ℤ := q.num.tdiv (q.den : ℤ)

/-- Python `x % 1` on a rational with the positive modulus `1`:
the fractional part `x - floor(x)`. -/
def pyModOne (q : ℚ) : ℚ := q - (⌊q⌋ : ℚ)

/-- `standard_denominators = {2, 4, 8, 16, 32, denominator}`
(line 45 of `luthier_functions.py`). -/
def standard_denominators (denominator : ℕ) : List ℕ :=
  [2, 4, 8, 16, 32, denominator]

/-- The reduced candidate fraction of `round_to_denominator`:
`Fraction(round(fraction_value * denominator), denominator)` built from the
absolute value of the input (lines 48-51 of `luthier_functions.py`). -/
def candidate_fraction (fraction_value : ℚ) (denominator : ℕ) : ℚ :=
  mkRat (pyRound (|fraction_value| * (denominator : ℚ))) denominator

/-- `round_to_denominator` (lines 17-59 of `luthier_functions.py`).
`Fraction(0, denominator)` normalizes to `0`; `Fraction(numerator,
denominator)` is `mkRat`; the final fallback returns the sign times the
absolute value of the input (the code has replaced `fraction_value` by its
absolute value at that point). -/
def round_to_denominator (fraction_value : ℚ) (denominator : ℕ) : ℚ :=
  if fraction_value = 0 then 0
  else
    let sign : ℚ := if fraction_value < 0 then -1 else 1
    let fraction : ℚ := candidate_fraction fraction_value denominator
    if fraction.den ∈ standard_denominators denominator then sign * fraction
    else sign * |fraction_value|

/-- The apostrophe character. -/
def apostrophe : Char := Char.ofNat 39

/-- Preprocessing of `input_to_inches` (line 105):
`input_value.replace("'", "ft").replace(",", ".")`. -/
def preprocess : List Char → List Char
  | [] => []
  | c :: cs =>
    if c = apostrophe then 'f' :: 't' :: preprocess cs
    else if c = ',' then '.' :: preprocess cs
    else c :: preprocess cs

/-- Python's `\s` on the ASCII range: space, tab, newline, carriage return,
vertical tab, form feed. -/
def isPySpace (c : Char) : Bool :=
  c = ' ' || c = '\t' || c = '\n' || c = '\r' || c = Char.ofNat 11 || c = Char.ofNat 12

/-- Split a maximal leading run of ASCII digits (`\d+` matched greedily). -/
def takeDigits (cs : List Char) : List Char × List Char :=
  (cs.takeWhile Char.isDigit, cs.dropWhile Char.isDigit)

/-- First branch of the first regex alternative `(\d+\s)?\d+/\d+` with the
optional group present: digits, one whitespace character, digits, `/`,
digits. -/
def matchMixed (cs : List Char) : Option (List Char × List Char) :=
  let (d1, r1) := takeDigits cs
  if d1.isEmpty then none
  else
    match r1 with
    | [] => none
    | w :: r2 =>
      if isPySpace w then
        let (d2, r3) := takeDigits r2
        if d2.isEmpty then none
        else
          match r3 with
          | '/' :: r4 =>
            let (d3, r5) := takeDigits r4
            if d3.isEmpty then none
            else some (d1 ++ w :: (d2 ++ '/' :: d3), r5)
          | _ => none
      else none

/-- First regex alternative with the optional group empty: `\d+/\d+`. -/
def matchSimpleFraction (cs : List Char) : Option (List Char × List Char) :=
  let (d1, r1) := takeDigits cs
  if d1.isEmpty then none
  else
    match r1 with
    | '/' :: r2 =>
      let (d2, r3) := takeDigits r2
      if d2.isEmpty then none else some (d1 ++ '/' :: d2, r3)
    | _ => none

/-- Second regex alternative `\d+(\.\d+)?`: digits with an optional
fractional part (the optional group is greedy and backtracks to empty when
no digit follows the dot). -/
def matchDecimal (cs : List Char) : Option (List Char × List Char) :=
  let (d1, r1) := takeDigits cs
  if d1.isEmpty then none
  else
    match r1 with
    | '.' :: r2 =>
      let (d2, r3) := takeDigits r2
      if d2.isEmpty then some (d1, r1) else some (d1 ++ '.' :: d2, r3)
    | _ => some (d1, r1)

/-- Third regex alternative `\.\d+`: a dot followed by digits. -/
def matchDotDecimal (cs : List Char) : Option (List Char × List Char) :=
  match cs with
  | '.' :: r1 =>
    let (d2, r2) := takeDigits r1
    if d2.isEmpty then none else some ('.' :: d2, r2)
  | _ => none

/-- Group 1 of `re.match(r'((\d+\s)?\d+/\d+|\d+(\.\d+)?|\.\d+)\s*([a-zA-Z]+)?', …)`
(line 116-117): the leading numeric token and the remaining characters.
Backtracking alternation tries the alternatives left to right; the trailing
`\s*([a-zA-Z]+)?` can always match (possibly emptily), so the whole regex
matches exactly when group 1 matches at the start of the string. -/
def matchNumericToken (cs : List Char) : Option (List Char × List Char) :=
  (matchMixed cs).orElse fun _ =>
    (matchSimpleFraction cs).orElse fun _ =>
      (matchDecimal cs).orElse fun _ => matchDotDecimal cs

/-- Decimal digit string to number (all inputs are digit runs). -/
def digitsToNat (cs : List Char) : ℕ :=
  cs.foldl (fun a c => 10 * a + (c.toNat - 48)) 0

/-- The numeric-value computation of `input_to_inches` (lines 120-134) on the
matched `value_str`.  The three branches are Python's
`'/' in value_str and ' ' in value_str` (mixed fraction, split on the space
and on the slash), `'/' in value_str` (`float(Fraction(value_str))`), and the
default (`float(value_str)`).  Paths on which Python raises — a zero
denominator (`ZeroDivisionError`) or a non-digit character inside a string
passed to `Fraction` (`ValueError`, reachable when the regex whitespace was
a tab so that `' ' in value_str` is false) — are `none`. -/
def parseValue (vs : List Char) : Option ℚ :=
  if vs.contains '/' && vs.contains ' ' then
    let whole := vs.takeWhile (· ≠ ' ')
    let frac := (vs.dropWhile (· ≠ ' ')).drop 1
    let numer := frac.takeWhile (· ≠ '/')
    let denom := (frac.dropWhile (· ≠ '/')).drop 1
    if digitsToNat denom = 0 then none
    else some ((digitsToNat whole : ℚ) + (digitsToNat numer : ℚ) / (digitsToNat denom : ℚ))
  else if vs.contains '/' then
    let numer := vs.takeWhile (· ≠ '/')
    let denom := (vs.dropWhile (· ≠ '/')).drop 1
    if numer.all Char.isDigit && denom.all Char.isDigit && !denom.isEmpty
        && digitsToNat denom ≠ 0 then
      some ((digitsToNat numer : ℚ) / (digitsToNat denom : ℚ))
    else none
  else
    let ip := vs.takeWhile (· ≠ '.')
    let fp := (vs.dropWhile (· ≠ '.')).drop 1
    some ((digitsToNat ip : ℚ) + (digitsToNat fp : ℚ) / (10 : ℚ) ^ fp.length)

/-- `unit_map` (lines 140-168): unit abbreviation to full unit name. -/
def unit_map : List (String × String) :=
  [("in", "inches"), ("inch", "inches"), ("inches", "inches"),
   ("mm", "millimeters"), ("millimeter", "millimeters"), ("millimeters", "millimeters"),
   ("cm", "centimeters"), ("centimeter", "centimeters"), ("centimeters", "centimeters"),
   ("m", "meters"), ("meter", "meters"), ("meters", "meters"),
   ("ft", "feet"), ("foot", "feet"), ("feet", "feet"),
   ("yd", "yards"), ("yard", "yards"), ("yards", "yards"),
   ("km", "kilometers"), ("kilometers", "kilometers"),
   ("micron", "microns"), ("micrometers", "microns"), ("microns", "microns"),
   ("um", "microns"),
   ("mi", "miles"), ("mile", "miles"), ("miles", "miles")]

/-- `unit_map.get(unit, 'inches')` (line 170): `unit` is the matched group 4
(`None` when absent), and unrecognized units default to inches. -/
def resolveUnit (u : Option String) : String :=
  match u with
  | none => "inches"
  | some s => (unit_map.lookup s).getD "inches"

/-- `conversions` (lines 173-183): units per inch, as exact rationals. -/
def conversions : List (String × ℚ) :=
  [("inches", 1), ("millimeters", 254/10), ("centimeters", 254/100),
   ("meters", 254/10000), ("feet", 1/12), ("yards", 1/36),
   ("kilometers", 254/10000000), ("microns", 25400), ("miles", 1/63360)]

/-- Group 4 of the regex, `\s*([a-zA-Z]+)?` applied after the numeric token:
skip whitespace greedily, then take the maximal run of alphabetic characters;
the group is `None` when that run is empty. -/
def extractUnit (rest : List Char) : Option String :=
  let afterWs := rest.dropWhile fun c => isPySpace c
  let unitChars := afterWs.takeWhile Char.isAlpha
  if unitChars.isEmpty then none else some ⟨unitChars⟩

/-- `input_to_inches` (lines 67-188).  When the regex does not match, Python
falls through the `if match:` block and crashes with `NameError` at line 170
(`unit_map` is unbound there) — modelled as `none`.  Otherwise group 4 is the
maximal run of alphabetic characters after the numeric token and optional
whitespace, and the result is `value / conversions[unit]`. -/
def input_to_inches (s : String) : Option ℚ :=
  match matchNumericToken (preprocess s.data) with
  | none => none
  | some (valueStr, rest) =>
    match parseValue valueStr with
    | none => none
    | some value =>
      match conversions.lookup (resolveUnit (extractUnit rest)) with
      | none => none
      | some factor => some (value / factor)

/-- The continued-fraction loop of CPython's `Fraction.limit_denominator`
(`p0, q0, p1, q1 = 0, 1, 1, 0` then repeatedly `a = n//d`,
`q2 = q0 + a*q1`, break when `q2 > max_denominator`, else advance the
convergents and set `n, d = d, n - a*d`).  The loop is driven by fuel (the
Euclidean remainder `d` strictly decreases, so `d + 1` steps suffice); the
`d = 0` guard is unreachable in Python because the loop breaks before the
last convergent (whose denominator exceeds `max_denominator`). -/
def limitDenLoop : ℕ → ℤ → ℤ → ℤ → ℤ → ℤ → ℤ → ℤ → ℤ × ℤ × ℤ × ℤ
  | 0, p0, q0, p1, q1, _, _, _ => (p0, q0, p1, q1)
  | fuel + 1, p0, q0, p1, q1, n, d, maxDen =>
    if d = 0 then (p0, q0, p1, q1)
    else
      let a := n.fdiv d
      let q2 := q0 + a * q1
      if maxDen < q2 then (p0, q0, p1, q1)
      else limitDenLoop fuel p1 q1 (p0 + a * p1) q2 d (n - a * d) maxDen

/-- CPython's `Fraction.limit_denominator(max_denominator)` as called at line
215 (`Fraction(decimal_inch).limit_denominator(64)`): the best rational
approximation with denominator at most `maxDen`.  If the denominator is
already small enough the value is returned unchanged; otherwise the two
candidate bounds are compared by absolute distance (`Fraction(a, b)` is
`Rat.divInt a b`).  The `max_denominator < 1` `ValueError` path is never
reached (the call site always passes 64); the `q1 = 0` guard is likewise
unreachable (the first loop iteration never breaks when `maxDen ≥ 1`). -/
def limit_denominator (q : ℚ) (maxDen : ℕ) : ℚ :=
  if q.den ≤ maxDen then q
  else
    let st := limitDenLoop (q.den + 1) 0 1 1 0 q.num (q.den : ℤ) (maxDen : ℤ)
    let p0 := st.1
    let q0 := st.2.1
    let p1 := st.2.2.1
    let q1 := st.2.2.2
    if q1 = 0 then q
    else
      let k := ((maxDen : ℤ) - q0).fdiv q1
      let bound1 : ℚ := Rat.divInt (p0 + k * p1) (q0 + k * q1)
      let bound2 : ℚ := Rat.divInt p1 q1
      if |bound2 - q| ≤ |bound1 - q| then bound2 else bound1

/-- Python `str(Fraction)`: `"num/den"`, or just `"num"` for integers. -/
def fractionStr (q : ℚ) : String :=
  if q.den = 1 then toString q.num else toString q.num ++ "/" ++ toString q.den

/-- The mixed-number rendering of `convert` (lines 220-231), as a function of
`decimal_inch` and `rounded_fraction`:

* if `rounded_fraction.numerator == int(rounded_fraction)` (the rounded
  fraction is a whole number), render `int(decimal_inch)` bare;
* else if `rounded_fraction.numerator >= rounded_fraction.denominator * 2 or
  decimal_inch >= 1`, render `"<int(decimal_inch)> <rounded_fraction % 1>"`;
* else render `rounded_fraction` bare. -/
def mixed_number (decimal_inch : ℚ) (rounded_fraction : ℚ) : String :=
  if rounded_fraction.num = pyInt rounded_fraction then
    toString (pyInt decimal_inch)
  else if (rounded_fraction.den : ℤ) * 2 ≤ rounded_fraction.num
      ∨ 1 ≤ decimal_inch then
    toString (pyInt decimal_inch) ++ " " ++ fractionStr (pyModOne rounded_fraction)
  else
    fractionStr rounded_fraction

/-- The rendering rule as worded by the specification (§4.3) and by claim C4,
for comparison with `mixed_number`: the middle branch fires when "the
fractional part's numerator is at least half its denominator, OR the original
decimal value is ≥ 1". -/
def spec_mixed_number (decimal_inch : ℚ) (rounded_fraction : ℚ) : String :=
  if rounded_fraction.num = pyInt rounded_fraction then
    toString (pyInt decimal_inch)
  else if ((pyModOne rounded_fraction).den : ℤ) ≤ (pyModOne rounded_fraction).num * 2
      ∨ 1 ≤ decimal_inch then
    toString (pyInt decimal_inch) ++ " " ++ fractionStr (pyModOne rounded_fraction)
  else
    fractionStr rounded_fraction

/-- The `fraction` entry of the dictionary returned by `convert`
(lines 193-261): parse to decimal inches, `Fraction(decimal_inch)` (exact in
the rational model), `.limit_denominator(64)`, `round_to_denominator`, then
the mixed-number string with `" in"` appended.  The other nine entries of the
returned dictionary are printf-formatted floats and are not needed by any
claim.  A parse failure propagates (`convert` calls `input_to_inches` before
building anything). -/
def convert_fraction (s : String) : Option String :=
  match input_to_inches s with
  | none => none
  | some decimal_inch =>
    let fractional_inch := limit_denominator decimal_inch 64
    let rounded_fraction := round_to_denominator fractional_inch 64
    some (mixed_number decimal_inch rounded_fraction ++ " in")

/-- The positions loop of `calculate_spacing` (lines 327-332): for each
gauge, record `(position + position + gauge) / 2` (the string's center) and
advance `position += inter_string_distance + gauge`. -/
def spacingPositions (inter_string_distance : ℚ) : ℚ → List ℚ → List ℚ
  | _, [] => []
  | position, gauge :: rest =>
    (position + position + gauge) / 2
      :: spacingPositions inter_string_distance (position + inter_string_distance + gauge) rest

/-- `calculate_spacing` (lines 267-334), with `Decimal` values modelled as
exact rationals.  An empty gauge list raises `IndexError` at
`string_gauges[0]`; a one-element list reaches
`inside_distance / Decimal(len(string_gauges) - 1)` with a zero divisor and
raises `decimal.DivisionByZero`; both are modelled as `none`.  (The global
`getcontext().prec = 6` at line 303 is modelled separately in
`calculate_spacing_with_context`.) -/
def calculate_spacing (nut_width : ℚ) (string_gauges : List ℚ)
    (edge_distance : ℚ) (edge_checkbox : Bool) : Option (ℚ × List ℚ) :=
  match string_gauges with
  | [] => none
  | g0 :: rest =>
    let gauges := g0 :: rest
    let gLast := gauges.getLast (List.cons_ne_nil g0 rest)
    let low_e_edge := if edge_checkbox then edge_distance else edge_distance - g0 / 2
    let high_e_edge :=
      if edge_checkbox then nut_width - edge_distance
      else nut_width - edge_distance + gLast / 2
    let low_e_inside := low_e_edge + g0
    let high_e_inside := high_e_edge - gLast
    let total_inside_distance := high_e_inside - low_e_inside
    let interior_diameters := (gauges.drop 1).dropLast.sum
    let inside_distance := total_inside_distance - interior_diameters
    if rest.isEmpty then none
    else
      let inter_string_distance := inside_distance / ((gauges.length - 1 : ℕ) : ℚ)
      some (inter_string_distance, spacingPositions inter_string_distance low_e_edge gauges)

/-- `calculate_spacing` with the process-wide decimal context made explicit
as state: the input is the ambient context precision when the call starts,
the first output component is the context precision after the call returns.
Line 303 executes `getcontext().prec = 6`, overwriting the ambient precision
before any arithmetic and never restoring it, so the final precision is 6
regardless of the initial one. -/
def calculate_spacing_with_context (_initial_prec : ℕ) (nut_width : ℚ)
    (string_gauges : List ℚ) (edge_distance : ℚ) (edge_checkbox : Bool) :
    ℕ × Option (ℚ × List ℚ) :=
  (6, calculate_spacing nut_width string_gauges edge_distance edge_checkbox)

/-- `fret_placement` (lines 336-359):
`scale_length - (scale_length / (2 ** (fret_number / 12)))`, with the float
power modelled as real exponentiation. -/
noncomputable def fret_placement (scale_length : ℝ) (fret_number : ℤ) : ℝ :=
  scale_length - scale_length / (2 : ℝ) ^ ((fret_number : ℝ) / 12)

/-- The dictionary returned by `calculate_fretboard`. -/
structure FretboardResult where
  fretboard_length : ℝ
  saddle_radius : ℝ
  result : List (ℝ × ℝ)

/-- `calculate_fretboard` (lines 361-395).  Every division in the body has
divisor `fretboard_length`; when that is zero Python raises
`ZeroDivisionError` at the `final_radius` line (modelled as `none`), and
there is no other failure path — in particular there is no validation of
`num_frets` or `scale_length`.  `range(1, num_frets + 1)` is empty for
`num_frets ≤ 0` (`Int.toNat` clamps at 0), and `positions[:-1]` is
`List.dropLast`. -/
noncomputable def calculate_fretboard (start_radius end_radius scale_length : ℝ)
    (num_frets : ℤ) : Option FretboardResult :=
  let fretboard_length := fret_placement scale_length (num_frets + 1)
  let final_fret_pos := fret_placement scale_length num_frets
  if fretboard_length = 0 then none
  else
    let final_radius :=
      start_radius + (final_fret_pos / fretboard_length) * (end_radius - start_radius)
    let saddle_radius :=
      start_radius + (scale_length / fretboard_length) * (end_radius - start_radius)
    let positions :=
      (List.range num_frets.toNat).map fun (k : ℕ) => fret_placement scale_length ((k : ℤ) + 1)
    let result :=
      positions.dropLast.map
        (fun pos => (pos, start_radius + (pos / fretboard_length) * (end_radius - start_radius)))
      ++ [(final_fret_pos, final_radius)]
    some ⟨fretboard_length, saddle_radius, result⟩

/- =============================================================
   Shared evaluation lemmas
============================================================= -/

/-- Evaluation helper for `round_to_denominator` on positive inputs: with the
product `fraction_value * denominator` computed separately, the function is
the branch on the reduced candidate denominator. -/
theorem round_to_denominator_pos_eval (v : ℚ) (d : ℕ) (p : ℚ)
    (hv : 0 < v) (hp : v * (d : ℚ) = p) :
    round_to_denominator v d =
      if (mkRat (pyRound p) d).den ∈ standard_denominators d then mkRat (pyRound p) d
      else v := by
  rw [round_to_denominator, if_neg hv.ne', candidate_fraction, abs_of_pos hv, hp,
    if_neg (not_lt.mpr hv.le)]
  simp only [one_mul, abs_of_pos hv]

/-- Evaluation helper for `limit_denominator` when the loop result is known. -/
theorem limit_denominator_eval (q : ℚ) (maxDen : ℕ) (p0 q0 p1 q1 : ℤ)
    (hden : ¬ q.den ≤ maxDen)
    (hloop : limitDenLoop (q.den + 1) 0 1 1 0 q.num (q.den : ℤ) (maxDen : ℤ)
      = (p0, q0, p1, q1))
    (hq1 : ¬ q1 = 0) :
    limit_denominator q maxDen =
      if |Rat.divInt p1 q1 - q| ≤
          |Rat.divInt (p0 + ((maxDen:ℤ) - q0).fdiv q1 * p1)
            (q0 + ((maxDen:ℤ) - q0).fdiv q1 * q1) - q|
      then Rat.divInt p1 q1
      else Rat.divInt (p0 + ((maxDen:ℤ) - q0).fdiv q1 * p1)
            (q0 + ((maxDen:ℤ) - q0).fdiv q1 * q1) := by
  rw [limit_denominator, if_neg hden]
  simp only [hloop, if_neg hq1]

/-- The denominator of `Fraction(N, d)` divides `d`. -/
theorem mkRat_den_dvd (N : ℤ) (d : ℕ) : (mkRat N d).den ∣ d := by
  have h := Rat.den_dvd N (d : ℤ)
  rw [← Rat.mkRat_eq_divInt] at h
  exact_mod_cast h

/-- The reduced `Fraction(N, d)` is a whole number exactly when `d` divides
`N` (for `d ≠ 0`). -/
theorem mkRat_den_one_iff (N : ℤ) (d : ℕ) (hd : d ≠ 0) :
    (mkRat N d).den = 1 ↔ (d : ℤ) ∣ N := by
  have hd' : ((d : ℕ) : ℚ) ≠ 0 := by exact_mod_cast hd
  constructor
  · intro h
    have h2 : ((mkRat N d).num : ℚ) = mkRat N d := (Rat.den_eq_one_iff _).mp h
    have h3 : (N : ℚ) = ((mkRat N d).num : ℚ) * (d : ℚ) := by
      rw [h2, Rat.mkRat_eq_div]
      field_simp
    have h4 : N = (mkRat N d).num * (d : ℤ) := by exact_mod_cast h3
    exact Dvd.intro _ (by linarith)
  · rintro ⟨m, rfl⟩
    have e : mkRat ((d : ℤ) * m) d = ((m : ℤ) : ℚ) := by
      rw [Rat.mkRat_eq_div]
      push_cast
      rw [mul_comm, mul_div_assoc, div_self hd', mul_one]
    rw [e]
    exact Rat.den_intCast m

/-- A divisor of 64 other than 1 is one of the standard ruler denominators. -/
theorem mem_standard_of_dvd_64 (den : ℕ) (h : den ∣ 64) (h1 : den ≠ 1) :
    den ∈ standard_denominators 64 := by
  have hm : den ∈ Nat.divisors 64 := Nat.mem_divisors.mpr ⟨h, by norm_num⟩
  rw [show Nat.divisors 64 = ({1, 2, 4, 8, 16, 32, 64} : Finset ℕ) from by decide] at hm
  simp only [Finset.mem_insert, Finset.mem_singleton] at hm
  rcases hm with h2 | h2 | h2 | h2 | h2 | h2 | h2 <;> subst h2 <;> simp_all <;> decide

/- =============================================================
   Claim C1
============================================================= -/

/-- Claim C1: for every input string in which no leading numeric token
(mixed number, simple fraction, or decimal) matches at the start after
preprocessing, parsing fails: `input_to_inches` (and hence `convert`)
produces no value.  (In the Python source the failure is the hard
`NameError` crash at line 170, the spec's `ParseError`.) -/
theorem C1_no_leading_numeric_token_fails (s : String)
    (h : matchNumericToken (preprocess s.data) = none) :
    input_to_inches s = none ∧ convert_fraction s = none := by
  have h1 : input_to_inches s = none := by simp only [input_to_inches, h]
  exact ⟨h1, by simp only [convert_fraction, h1]⟩

/-- Witness for C1 at the unit-only string `"in"`. -/
theorem C1_witness :
    matchNumericToken (preprocess "in".data) = none ∧
    input_to_inches "in" = none ∧ convert_fraction "in" = none := by
  have h : matchNumericToken (preprocess "in".data) = none := by decide
  exact ⟨h, (C1_no_leading_numeric_token_fails "in" h).1,
    (C1_no_leading_numeric_token_fails "in" h).2⟩

/- =============================================================
   Claim C2
============================================================= -/

/-- Counterexample to claim C2: `round_to_denominator(0.45)` does not return
the input `0.45 = 9/20` unrounded; it returns `29/64`. -/
theorem C2_counterexample :
    round_to_denominator (9/20) 64 = 29/64 ∧ ((29:ℚ)/64) ≠ 9/20 := by
  constructor
  · have hp : (9:ℚ)/20 * ((64:ℕ) : ℚ) = Rat.divInt 144 5 := by
      rw [Rat.divInt_eq_div]; push_cast; norm_num
    rw [round_to_denominator_pos_eval (9/20) 64 (Rat.divInt 144 5) (by norm_num) hp]
    rw [if_pos (by decide :
      (mkRat (pyRound (Rat.divInt 144 5)) 64).den ∈ standard_denominators 64)]
    rw [show pyRound (Rat.divInt 144 5) = 29 from by decide, Rat.mkRat_eq_div]
    push_cast
    norm_num
  · norm_num

/-- Claim C2 as amended: `round_to_denominator(0.45)` with the default finest
denominator 64 returns `Fraction(29, 64)`: the candidate numerator is
`round(0.45 * 64) = 29`, the reduced candidate `29/64` has denominator 64,
which is in the standard set, so the fallback branch is not taken. -/
theorem C2_amended :
    round_to_denominator (9/20) 64 = mkRat 29 64 ∧
    pyRound (Rat.divInt 144 5) = 29 ∧
    (9:ℚ)/20 * 64 = Rat.divInt 144 5 ∧
    (mkRat 29 64).den ∈ standard_denominators 64 := by
  refine ⟨?_, by decide, by rw [Rat.divInt_eq_div]; push_cast; norm_num, by decide⟩
  have hp : (9:ℚ)/20 * ((64:ℕ) : ℚ) = Rat.divInt 144 5 := by
    rw [Rat.divInt_eq_div]; push_cast; norm_num
  rw [round_to_denominator_pos_eval (9/20) 64 (Rat.divInt 144 5) (by norm_num) hp]
  rw [if_pos (by decide :
    (mkRat (pyRound (Rat.divInt 144 5)) 64).den ∈ standard_denominators 64)]
  rw [show pyRound (Rat.divInt 144 5) = 29 from by decide]

/- =============================================================
   Claim C3
============================================================= -/

/-- Counterexample to claim C3: at the nonzero input `0.999 = 999/1000` the
candidate fraction `Fraction(round(0.999 * 64), 64) = Fraction(64, 64)`
reduces to denominator 1, which is not in the standard set, so
`round_to_denominator` takes the fallback branch and returns the unrounded
input. -/
theorem C3_counterexample :
    ((999:ℚ)/1000 ≠ 0) ∧
    (candidate_fraction (999/1000) 64).den = 1 ∧
    1 ∉ standard_denominators 64 ∧
    round_to_denominator (999/1000) 64 = 999/1000 := by
  have hprod : |((999:ℚ)/1000)| * ((64:ℕ) : ℚ) = Rat.divInt 63936 1000 := by
    rw [Rat.divInt_eq_div, abs_of_pos (show (0:ℚ) < 999/1000 by norm_num)]
    push_cast
    norm_num
  refine ⟨by norm_num, ?_, by decide, ?_⟩
  · rw [candidate_fraction, hprod]
    decide
  · have hp : (999:ℚ)/1000 * ((64:ℕ) : ℚ) = Rat.divInt 63936 1000 := by
      rw [Rat.divInt_eq_div]; push_cast; norm_num
    rw [round_to_denominator_pos_eval (999/1000) 64 (Rat.divInt 63936 1000)
      (by norm_num) hp]
    rw [if_neg (by decide :
      ¬ (mkRat (pyRound (Rat.divInt 63936 1000)) 64).den ∈ standard_denominators 64)]

/-- Claim C3 as amended: for every nonzero input the reduced candidate
denominator divides 64 (so it lies in {1, 2, 4, 8, 16, 32, 64}); it lies in
the standard set {2, 4, 8, 16, 32, 64} if and only if the rounded numerator
`round(|value| * 64)` is not a multiple of 64.  The fallback branch is
therefore reachable — it is taken exactly when the candidate reduces to a
whole number — and in that case `round_to_denominator` returns the signed
unrounded input. -/
theorem C3_amended (v : ℚ) (hv : v ≠ 0) :
    (candidate_fraction v 64).den ∣ 64 ∧
    ((candidate_fraction v 64).den ∈ standard_denominators 64 ↔
      ¬ (64:ℤ) ∣ pyRound (|v| * ((64:ℕ) : ℚ))) ∧
    round_to_denominator v 64 =
      (if (candidate_fraction v 64).den ∈ standard_denominators 64 then
        (if v < 0 then -1 else 1) * candidate_fraction v 64
      else (if v < 0 then -1 else 1) * |v|) := by
  have hdvd : (candidate_fraction v 64).den ∣ 64 := mkRat_den_dvd _ 64
  have hone : (candidate_fraction v 64).den = 1 ↔
      (64:ℤ) ∣ pyRound (|v| * ((64:ℕ) : ℚ)) :=
    mkRat_den_one_iff _ 64 (by norm_num)
  refine ⟨hdvd, ⟨?_, ?_⟩, ?_⟩
  · intro hmem hdvd64
    have h1 : (candidate_fraction v 64).den = 1 := hone.mpr hdvd64
    rw [h1] at hmem
    simp [standard_denominators] at hmem
  · intro hndvd
    exact mem_standard_of_dvd_64 _ hdvd fun h1 => hndvd (hone.mp h1)
  · rw [round_to_denominator, if_neg hv]

/-- Witness for C3 (amended) at the nonzero input `1/2`. -/
theorem C3_witness :
    ((1:ℚ)/2 ≠ 0) ∧
    ((candidate_fraction (1/2) 64).den ∣ 64 ∧
     ((candidate_fraction (1/2) 64).den ∈ standard_denominators 64 ↔
       ¬ (64:ℤ) ∣ pyRound (|(1:ℚ)/2| * ((64:ℕ) : ℚ))) ∧
     round_to_denominator (1/2) 64 =
       (if (candidate_fraction (1/2) 64).den ∈ standard_denominators 64 then
         (if (1:ℚ)/2 < 0 then -1 else 1) * candidate_fraction (1/2) 64
       else (if (1:ℚ)/2 < 0 then -1 else 1) * |(1:ℚ)/2|)) :=
  ⟨by norm_num, C3_amended (1/2) (by norm_num)⟩

/- =============================================================
   Claim C4
============================================================= -/

/-- Counterexample to claim C4's rendering rule: at `convert("0.5")` the
decimal value is `1/2` and the rounded fraction is `1/2`; its fractional
part's numerator (1) is at least half its denominator (2), so the claimed
rule renders the mixed number `"0 1/2"`, but the code's rule
(`numerator >= denominator * 2 or decimal_inch >= 1`) renders the bare
fraction `"1/2"`. -/
theorem C4_counterexample :
    convert_fraction "0.5" = some "1/2 in" ∧
    mixed_number (1/2) (1/2) = "1/2" ∧
    spec_mixed_number (1/2) (1/2) = "0 1/2" := by
  have e : (1/2 : ℚ) = Rat.divInt 1 2 := by rw [Rat.divInt_eq_div]; norm_num
  have hmod : pyModOne (Rat.divInt 1 2) = Rat.divInt 1 2 := by
    rw [pyModOne, show ⌊Rat.divInt 1 2⌋ = 0 from by decide]
    simp
  have hmix : mixed_number (Rat.divInt 1 2) (Rat.divInt 1 2) = "1/2" := by decide
  refine ⟨?_, by rw [e]; exact hmix, ?_⟩
  · have h1 : input_to_inches "0.5" = some (1/2 : ℚ) := by
      have hm : matchNumericToken (preprocess "0.5".data)
          = some (['0', '.', '5'], []) := by decide
      have hv : parseValue ['0', '.', '5'] = some (1/2 : ℚ) := by
        have h0 : parseValue ['0', '.', '5']
            = some ((↑(0:ℕ) : ℚ) + (↑(5:ℕ) : ℚ) / (10:ℚ) ^ (1:ℕ)) := rfl
        rw [h0]; push_cast; norm_num
      have hl : conversions.lookup (resolveUnit (extractUnit [])) = some 1 := rfl
      simp only [input_to_inches, hm, hv, hl]
      norm_num
    have h2 : limit_denominator (Rat.divInt 1 2) 64 = Rat.divInt 1 2 := by decide
    have h3 : round_to_denominator (Rat.divInt 1 2) 64 = Rat.divInt 1 2 := by
      have hp : Rat.divInt 1 2 * ((64:ℕ) : ℚ) = Rat.divInt 32 1 := by
        rw [Rat.divInt_eq_div, Rat.divInt_eq_div]; push_cast; norm_num
      rw [round_to_denominator_pos_eval _ 64 _ (by decide) hp]
      decide
    simp only [convert_fraction, h1, e, h2, h3, hmix]
    decide
  · rw [e, spec_mixed_number, hmod]
    decide

/-- Claim C4 as amended: the middle branch of the rendering is guarded by the
code's condition `rounded_fraction.numerator >= rounded_fraction.denominator
* 2 or decimal_inch >= 1` (the whole rounded fraction at least 2, not the
fractional part at least one half); with the branches as in the code,
`convert("25.5 in")["fraction"] == "25 1/2 in"` (mixed branch),
`convert("0.25")["fraction"] == "1/4 in"` (bare-fraction branch), and
`convert("3")["fraction"] == "3 in"` (whole-number branch). -/
theorem C4_amended :
    convert_fraction "25.5 in" = some "25 1/2 in" ∧
    convert_fraction "0.25" = some "1/4 in" ∧
    convert_fraction "3" = some "3 in" := by
  refine ⟨?_, ?_, ?_⟩
  · have e : (51/2 : ℚ) = Rat.divInt 51 2 := by rw [Rat.divInt_eq_div]; norm_num
    have h1 : input_to_inches "25.5 in" = some (51/2 : ℚ) := by
      have hm : matchNumericToken (preprocess "25.5 in".data)
          = some (['2', '5', '.', '5'], [' ', 'i', 'n']) := by decide
      have hv : parseValue ['2', '5', '.', '5'] = some (51/2 : ℚ) := by
        have h0 : parseValue ['2', '5', '.', '5']
            = some ((↑(25:ℕ) : ℚ) + (↑(5:ℕ) : ℚ) / (10:ℚ) ^ (1:ℕ)) := rfl
        rw [h0]; push_cast; norm_num
      have hl : conversions.lookup (resolveUnit (extractUnit [' ', 'i', 'n']))
          = some 1 := rfl
      simp only [input_to_inches, hm, hv, hl]
      norm_num
    have h2 : limit_denominator (Rat.divInt 51 2) 64 = Rat.divInt 51 2 := by decide
    have h3 : round_to_denominator (Rat.divInt 51 2) 64 = Rat.divInt 51 2 := by
      have hp : Rat.divInt 51 2 * ((64:ℕ) : ℚ) = Rat.divInt 1632 1 := by
        rw [Rat.divInt_eq_div, Rat.divInt_eq_div]; push_cast; norm_num
      rw [round_to_denominator_pos_eval _ 64 _ (by decide) hp]
      decide
    have hmod : pyModOne (Rat.divInt 51 2) = Rat.divInt 1 2 := by
      rw [pyModOne, show ⌊Rat.divInt 51 2⌋ = 25 from by decide]
      rw [Rat.divInt_eq_div, Rat.divInt_eq_div]
      push_cast
      norm_num
    have h4 : mixed_number (Rat.divInt 51 2) (Rat.divInt 51 2) = "25 1/2" := by
      rw [mixed_number, hmod]
      decide
    simp only [convert_fraction, h1, e, h2, h3, h4]
    decide
  · have e : (1/4 : ℚ) = Rat.divInt 1 4 := by rw [Rat.divInt_eq_div]; norm_num
    have h1 : input_to_inches "0.25" = some (1/4 : ℚ) := by
      have hm : matchNumericToken (preprocess "0.25".data)
          = some (['0', '.', '2', '5'], []) := by decide
      have hv : parseValue ['0', '.', '2', '5'] = some (1/4 : ℚ) := by
        have h0 : parseValue ['0', '.', '2', '5']
            = some ((↑(0:ℕ) : ℚ) + (↑(25:ℕ) : ℚ) / (10:ℚ) ^ (2:ℕ)) := rfl
        rw [h0]; push_cast; norm_num
      have hl : conversions.lookup (resolveUnit (extractUnit [])) = some 1 := rfl
      simp only [input_to_inches, hm, hv, hl]
      norm_num
    have h2 : limit_denominator (Rat.divInt 1 4) 64 = Rat.divInt 1 4 := by decide
    have h3 : round_to_denominator (Rat.divInt 1 4) 64 = Rat.divInt 1 4 := by
      have hp : Rat.divInt 1 4 * ((64:ℕ) : ℚ) = Rat.divInt 16 1 := by
        rw [Rat.divInt_eq_div, Rat.divInt_eq_div]; push_cast; norm_num
      rw [round_to_denominator_pos_eval _ 64 _ (by decide) hp]
      decide
    have h4 : mixed_number (Rat.divInt 1 4) (Rat.divInt 1 4) = "1/4" := by decide
    simp only [convert_fraction, h1, e, h2, h3, h4]
    decide
  · have e : (3 : ℚ) = Rat.divInt 3 1 := by rw [Rat.divInt_eq_div]; norm_num
    have h1 : input_to_inches "3" = some (3 : ℚ) := by
      have hm : matchNumericToken (preprocess "3".data) = some (['3'], []) := by decide
      have hv : parseValue ['3'] = some (3 : ℚ) := by
        have h0 : parseValue ['3']
            = some ((↑(3:ℕ) : ℚ) + (↑(0:ℕ) : ℚ) / (10:ℚ) ^ (0:ℕ)) := rfl
        rw [h0]; push_cast; norm_num
      have hl : conversions.lookup (resolveUnit (extractUnit [])) = some 1 := rfl
      simp only [input_to_inches, hm, hv, hl]
      norm_num
    have h2 : limit_denominator (Rat.divInt 3 1) 64 = Rat.divInt 3 1 := by decide
    have h3 : round_to_denominator (Rat.divInt 3 1) 64 = Rat.divInt 3 1 := by
      have hp : Rat.divInt 3 1 * ((64:ℕ) : ℚ) = Rat.divInt 192 1 := by
        rw [Rat.divInt_eq_div, Rat.divInt_eq_div]; push_cast; norm_num
      rw [round_to_denominator_pos_eval _ 64 _ (by decide) hp]
      decide
    have h4 : mixed_number (Rat.divInt 3 1) (Rat.divInt 3 1) = "3" := by decide
    simp only [convert_fraction, h1, e, h2, h3, h4]
    decide

/- =============================================================
   Claim C9
============================================================= -/

/-- Claim C9: the whole-number part rendered in the `fraction` entry comes
from `int(decimal_inch)`, not from the rounded fraction.  At the input
`"0.999"` the pipeline parses `999/1000`, `limit_denominator` carries it up
to the whole number `1`, `round_to_denominator` returns `1` (via its
fallback), yet the rendered entry is `"0 in"` — `int(0.999) = 0`, one less
than the rounded fraction's value. -/
theorem C9_whole_part_truncates_decimal :
    input_to_inches "0.999" = some (999/1000 : ℚ) ∧
    limit_denominator (999/1000) 64 = 1 ∧
    round_to_denominator 1 64 = 1 ∧
    pyInt (999/1000) = 0 ∧
    convert_fraction "0.999" = some "0 in" := by
  have e : (999/1000 : ℚ) = Rat.divInt 999 1000 := by rw [Rat.divInt_eq_div]; norm_num
  have h1 : input_to_inches "0.999" = some (999/1000 : ℚ) := by
    have hm : matchNumericToken (preprocess "0.999".data)
        = some (['0', '.', '9', '9', '9'], []) := by decide
    have hv : parseValue ['0', '.', '9', '9', '9'] = some (999/1000 : ℚ) := by
      have h0 : parseValue ['0', '.', '9', '9', '9']
          = some ((↑(0:ℕ) : ℚ) + (↑(999:ℕ) : ℚ) / (10:ℚ) ^ (3:ℕ)) := rfl
      rw [h0]; push_cast; norm_num
    have hl : conversions.lookup (resolveUnit (extractUnit [])) = some 1 := rfl
    simp only [input_to_inches, hm, hv, hl]
    norm_num
  have h2 : limit_denominator (Rat.divInt 999 1000) 64 = 1 := by
    have hloop : limitDenLoop ((Rat.divInt 999 1000).den + 1) 0 1 1 0
        (Rat.divInt 999 1000).num ((Rat.divInt 999 1000).den : ℤ) ((64:ℕ) : ℤ)
        = (0, 1, 1, 1) := by decide
    rw [limit_denominator_eval _ 64 0 1 1 1 (by decide) hloop (by decide)]
    rw [show ((((64:ℕ) : ℤ) - 1).fdiv 1) = 63 from by decide]
    rw [show ((0 + 63 * 1 : ℤ)) = 63 from by decide,
      show ((1 + 63 * 1 : ℤ)) = 64 from by decide]
    have hcmp : |Rat.divInt 1 1 - Rat.divInt 999 1000|
        ≤ |Rat.divInt 63 64 - Rat.divInt 999 1000| := by
      rw [Rat.divInt_eq_div, Rat.divInt_eq_div, Rat.divInt_eq_div]
      push_cast
      rw [show ((1:ℚ)/1 - 999/1000) = 1/1000 by norm_num,
        show ((63:ℚ)/64 - 999/1000) = -(117/8000) by norm_num,
        abs_of_pos (by norm_num : (0:ℚ) < 1/1000), abs_neg,
        abs_of_pos (by norm_num : (0:ℚ) < 117/8000)]
      norm_num
    rw [if_pos hcmp]
    decide
  have h3 : round_to_denominator (1 : ℚ) 64 = 1 := by
    have hp : (1 : ℚ) * ((64:ℕ) : ℚ) = Rat.divInt 64 1 := by
      rw [Rat.divInt_eq_div]; push_cast; norm_num
    rw [round_to_denominator_pos_eval _ 64 _ (by norm_num) hp]
    rw [if_neg (by decide :
      ¬ (mkRat (pyRound (Rat.divInt 64 1)) 64).den ∈ standard_denominators 64)]
  have h4 : pyInt (999/1000 : ℚ) = 0 := by rw [e]; decide
  have hmix : mixed_number (Rat.divInt 999 1000) 1 = "0" := by decide
  refine ⟨h1, by rw [e]; exact h2, h3, h4, ?_⟩
  simp only [convert_fraction, h1, e, h2, h3, hmix]
  decide

/- =============================================================
   Claims C6, C8, C10 (string spacing)
============================================================= -/

/-- The positions list has one entry per gauge. -/
theorem spacingPositions_length (inter pos : ℚ) (gs : List ℚ) :
    (spacingPositions inter pos gs).length = gs.length := by
  induction gs generalizing pos with
  | nil => rfl
  | cons g rest ih => simp [spacingPositions, ih]

/-- Adjacent centers produced by the positions loop differ by the
inter-string distance plus the mean of the two adjacent gauges. -/
theorem spacingPositions_gap (inter : ℚ) (pos : ℚ) (gs : List ℚ) (i : ℕ)
    (h : i + 1 < gs.length) :
    (spacingPositions inter pos gs).getD (i+1) 0
      - (spacingPositions inter pos gs).getD i 0
      = inter + (gs.getD i 0 + gs.getD (i+1) 0) / 2 := by
  induction gs generalizing pos i with
  | nil => simp at h
  | cons g rest ih =>
    cases i with
    | zero =>
      cases rest with
      | nil => simp at h
      | cons g2 rest2 =>
        simp only [spacingPositions, List.getD_cons_succ, List.getD_cons_zero]
        ring
    | succ j =>
      have h' : j + 1 < rest.length := by
        simpa [List.length_cons] using h
      simpa only [spacingPositions, List.getD_cons_succ] using ih (pos + inter + g) j h'

/-- `getLast` written with a default value. -/
theorem getLast_eq_getLastD (l : List ℚ) (h : l ≠ []) : l.getLast h = l.getLastD 0 := by
  cases l with
  | nil => exact absurd rfl h
  | cons a t => rw [List.getLastD_eq_getLast?, List.getLast?_eq_getLast _ h]; rfl

/-- Claim C6: for every gauge sequence with fewer than two entries,
`calculate_spacing` fails (`IndexError` on the empty list,
`decimal.DivisionByZero` on a singleton). -/
theorem C6_spacing_fails_on_short_gauges (nut_width edge_distance : ℚ)
    (edge_checkbox : Bool) (string_gauges : List ℚ)
    (h : string_gauges.length < 2) :
    calculate_spacing nut_width string_gauges edge_distance edge_checkbox = none := by
  cases string_gauges with
  | nil => rfl
  | cons g rest =>
    cases rest with
    | nil => rfl
    | cons g2 rest2 =>
      simp only [List.length_cons] at h
      omega

/-- Witness for C6 at the empty gauge list and at a singleton gauge list. -/
theorem C6_witness :
    (([] : List ℚ).length < 2 ∧ calculate_spacing (13/8) [] (1/8) false = none) ∧
    ([(46:ℚ)/1000].length < 2 ∧
      calculate_spacing (13/8) [46/1000] (1/8) false = none) :=
  ⟨⟨by decide, C6_spacing_fails_on_short_gauges (13/8) (1/8) false [] (by decide)⟩,
   ⟨by decide, C6_spacing_fails_on_short_gauges (13/8) (1/8) false [46/1000] (by decide)⟩⟩

/-- Counterexample to claim C8's uniform center-to-center part: with gauges
`[0.046, 0.026, 0.010]` on a 1.625-inch nut (edge distance 0.125, default
mode) the returned positions are `[0.125, 0.8215, 1.5]`, whose two adjacent
center-to-center gaps `0.6965` and `0.6785` differ: the uniform quantity is
the edge-to-edge clearance, not the center-to-center spacing. -/
theorem C8_counterexample :
    calculate_spacing (13/8) [46/1000, 26/1000, 10/1000] (1/8) false
      = some (1321/2000, [1/8, 1643/2000, 3/2]) ∧
    ((1643:ℚ)/2000 - 1/8) ≠ ((3:ℚ)/2 - 1643/2000) := by
  constructor
  · simp only [calculate_spacing, spacingPositions, List.getLast, List.drop,
      List.dropLast, List.sum_cons, List.sum_nil, List.length_cons, List.length_nil,
      List.isEmpty_cons, Bool.false_eq_true, if_false]
    norm_num
  · norm_num

/-- Claim C8 as amended: for gauge sequences of length `n ≥ 2`,
`calculate_spacing` returns the inter-string distance equal to the span
between the inside edges of the two outer strings minus the sum of the
interior gauges, divided by `n - 1` — and this value is the uniform
edge-to-edge clearance: adjacent returned center positions differ by the
inter-string distance plus the mean of the two adjacent gauges, so the
center-to-center spacing is uniform only where adjacent gauges are equal. -/
theorem C8_amended (nut_width edge_distance : ℚ) (edge_checkbox : Bool)
    (string_gauges : List ℚ) (h : 2 ≤ string_gauges.length) :
    ∃ inter positions,
      calculate_spacing nut_width string_gauges edge_distance edge_checkbox
        = some (inter, positions) ∧
      inter = (((if edge_checkbox then nut_width - edge_distance
                 else nut_width - edge_distance + string_gauges.getLastD 0 / 2)
                - string_gauges.getLastD 0)
               - ((if edge_checkbox then edge_distance
                  else edge_distance - string_gauges.headD 0 / 2)
                  + string_gauges.headD 0)
               - ((string_gauges.drop 1).dropLast).sum)
              / ((string_gauges.length : ℚ) - 1) ∧
      positions.length = string_gauges.length ∧
      (∀ i, i + 1 < string_gauges.length →
        positions.getD (i+1) 0 - positions.getD i 0
          = inter + (string_gauges.getD i 0 + string_gauges.getD (i+1) 0) / 2) := by
  obtain ⟨g0, rest, rfl⟩ : ∃ g0 rest, string_gauges = g0 :: rest := by
    cases string_gauges with
    | nil => simp at h
    | cons a l => exact ⟨a, l, rfl⟩
  have hrest : rest ≠ [] := by
    cases rest with
    | nil => simp at h
    | cons a l => simp
  have hcast : (((g0 :: rest).length - 1 : ℕ) : ℚ) = ((g0 :: rest).length : ℚ) - 1 := by
    rw [Nat.cast_sub (by simp : 1 ≤ (g0 :: rest).length), Nat.cast_one]
  have hmain : calculate_spacing nut_width (g0 :: rest) edge_distance edge_checkbox
      = some (
        ((if edge_checkbox then nut_width - edge_distance
          else nut_width - edge_distance
            + (g0 :: rest).getLast (List.cons_ne_nil g0 rest) / 2)
         - (g0 :: rest).getLast (List.cons_ne_nil g0 rest)
         - ((if edge_checkbox then edge_distance else edge_distance - g0 / 2) + g0)
         - ((g0 :: rest).drop 1).dropLast.sum)
        / (((g0 :: rest).length - 1 : ℕ) : ℚ),
        spacingPositions
          (((if edge_checkbox then nut_width - edge_distance
            else nut_width - edge_distance
              + (g0 :: rest).getLast (List.cons_ne_nil g0 rest) / 2)
           - (g0 :: rest).getLast (List.cons_ne_nil g0 rest)
           - ((if edge_checkbox then edge_distance else edge_distance - g0 / 2) + g0)
           - ((g0 :: rest).drop 1).dropLast.sum)
          / (((g0 :: rest).length - 1 : ℕ) : ℚ))
          (if edge_checkbox then edge_distance else edge_distance - g0 / 2)
          (g0 :: rest)) := by
    simp only [calculate_spacing]
    rw [if_neg (by simp [List.isEmpty_iff, hrest])]
  refine ⟨_, _, hmain, ?_, ?_, ?_⟩
  · rw [getLast_eq_getLastD (g0 :: rest) (List.cons_ne_nil g0 rest), hcast]
    simp only [List.headD_cons]
  · exact spacingPositions_length _ _ _
  · intro i hi
    exact spacingPositions_gap _ _ _ i hi

/-- Witness for C8 (amended) at a two-gauge sequence. -/
theorem C8_witness :
    2 ≤ ([(46:ℚ)/1000, 10/1000] : List ℚ).length ∧
    (∃ inter positions,
      calculate_spacing (13/8) [(46:ℚ)/1000, 10/1000] (1/8) false
        = some (inter, positions) ∧
      inter = (((if false then (13:ℚ)/8 - 1/8
                 else (13:ℚ)/8 - 1/8 + ([(46:ℚ)/1000, 10/1000] : List ℚ).getLastD 0 / 2)
                - ([(46:ℚ)/1000, 10/1000] : List ℚ).getLastD 0)
               - ((if false then (1:ℚ)/8
                  else (1:ℚ)/8 - ([(46:ℚ)/1000, 10/1000] : List ℚ).headD 0 / 2)
                  + ([(46:ℚ)/1000, 10/1000] : List ℚ).headD 0)
               - ((([(46:ℚ)/1000, 10/1000] : List ℚ).drop 1).dropLast).sum)
              / ((([(46:ℚ)/1000, 10/1000] : List ℚ).length : ℚ) - 1) ∧
      positions.length = ([(46:ℚ)/1000, 10/1000] : List ℚ).length ∧
      (∀ i, i + 1 < ([(46:ℚ)/1000, 10/1000] : List ℚ).length →
        positions.getD (i+1) 0 - positions.getD i 0
          = inter + (([(46:ℚ)/1000, 10/1000] : List ℚ).getD i 0
              + ([(46:ℚ)/1000, 10/1000] : List ℚ).getD (i+1) 0) / 2)) :=
  ⟨by decide, C8_amended (13/8) (1/8) false [(46:ℚ)/1000, 10/1000] (by decide)⟩

/-- Claim C10: the code at line 303 executes `getcontext().prec = 6`,
mutating the process-wide decimal arithmetic context; with the context made
explicit as state, a call entered at the Python default precision 28 leaves
the global precision set to 6 after it returns. -/
theorem C10_global_precision_mutated :
    (calculate_spacing_with_context 28 (13/8)
      [46/1000, 36/1000, 26/1000, 17/1000, 13/1000, 10/1000] (1/8) false).1 = 6 ∧
    (6 : ℕ) ≠ 28 :=
  ⟨rfl, by norm_num⟩

/- =============================================================
   Claims C5, C7 (fretboard)
============================================================= -/

/-- `2 ^ y = 1` only at `y = 0` (real exponentiation). -/
theorem two_rpow_eq_one_iff (y : ℝ) : (2:ℝ) ^ y = 1 ↔ y = 0 := by
  constructor
  · intro h
    have h1 : (2:ℝ) ^ y ≤ (2:ℝ) ^ (0:ℝ) := by rw [Real.rpow_zero]; exact h.le
    have h2 : (2:ℝ) ^ (0:ℝ) ≤ (2:ℝ) ^ y := by rw [Real.rpow_zero]; exact h.ge
    have h3 := (Real.rpow_le_rpow_left_iff (by norm_num : (1:ℝ) < 2)).mp h1
    have h4 := (Real.rpow_le_rpow_left_iff (by norm_num : (1:ℝ) < 2)).mp h2
    linarith
  · intro h
    rw [h, Real.rpow_zero]

/-- The fret-position formula vanishes only at a zero scale length or at
fret 0 (the nut). -/
theorem fret_placement_eq_zero_iff (s : ℝ) (m : ℤ) :
    fret_placement s m = 0 ↔ s = 0 ∨ m = 0 := by
  have hc : (0:ℝ) < (2:ℝ) ^ (((m:ℤ) : ℝ) / 12) :=
    Real.rpow_pos_of_pos (by norm_num) _
  have key : fret_placement s m
      = s * ((2:ℝ) ^ (((m:ℤ) : ℝ) / 12) - 1) / (2:ℝ) ^ (((m:ℤ) : ℝ) / 12) := by
    rw [fret_placement]
    field_simp
    ring
  rw [key, div_eq_zero_iff, mul_eq_zero, sub_eq_zero]
  constructor
  · rintro ((hs | hone) | hzero)
    · exact Or.inl hs
    · right
      have h0 := (two_rpow_eq_one_iff _).mp hone
      field_simp at h0
      exact_mod_cast h0
    · exact absurd hzero hc.ne'
  · rintro (hs | hm)
    · exact Or.inl (Or.inl hs)
    · refine Or.inl (Or.inr ?_)
      subst hm
      rw [two_rpow_eq_one_iff]
      norm_num

/-- `calculate_fretboard` fails exactly when its single division-by-zero
hazard fires: `fretboard_length = fret_placement(scale_length, num_frets+1)`
is zero, i.e. `scale_length = 0` or `num_frets = -1`. -/
theorem calculate_fretboard_eq_none_iff (start_radius end_radius scale_length : ℝ)
    (num_frets : ℤ) :
    calculate_fretboard start_radius end_radius scale_length num_frets = none
      ↔ (scale_length = 0 ∨ num_frets = -1) := by
  by_cases hc : fret_placement scale_length (num_frets + 1) = 0
  · rw [calculate_fretboard, if_pos hc]
    have := (fret_placement_eq_zero_iff _ _).mp hc
    simp only [true_iff]
    rcases this with hs | hm
    · exact Or.inl hs
    · exact Or.inr (by omega)
  · rw [calculate_fretboard, if_neg hc]
    simp only [reduceCtorEq, false_iff]
    intro hco
    apply hc
    rw [fret_placement_eq_zero_iff]
    rcases hco with hs | hm
    · exact Or.inl hs
    · exact Or.inr (by omega)

/-- Counterexample to claim C5: `calculate_fretboard` performs no argument
validation.  With `num_frets = 0 < 1` and a positive scale length it returns
a result (no failure), and with the non-positive scale length `-25.5` and 22
frets it likewise returns a result. -/
theorem C5_counterexample :
    ((0:ℤ) < 1) ∧ calculate_fretboard 10 16 (25.5:ℝ) 0 ≠ none ∧
    ((-25.5:ℝ) ≤ 0) ∧ calculate_fretboard 10 16 (-25.5:ℝ) 22 ≠ none := by
  refine ⟨by norm_num, ?_, by norm_num, ?_⟩
  · rw [Ne, calculate_fretboard_eq_none_iff]
    push_neg
    exact ⟨by norm_num, by decide⟩
  · rw [Ne, calculate_fretboard_eq_none_iff]
    push_neg
    exact ⟨by norm_num, by decide⟩

/-- Claim C5 as amended: `calculate_fretboard` raises no `ConfigurationError`
— it has no validation; it fails (Python `ZeroDivisionError` on the float
division by `fretboard_length`) exactly when `scale_length = 0` or
`num_frets = -1`; every other combination, including `num_frets < 1` with a
positive scale and negative scale lengths, returns a normal result. -/
theorem C5_amended (start_radius end_radius scale_length : ℝ) (num_frets : ℤ) :
    calculate_fretboard start_radius end_radius scale_length num_frets = none
      ↔ (scale_length = 0 ∨ num_frets = -1) :=
  calculate_fretboard_eq_none_iff start_radius end_radius scale_length num_frets

/-- Claim C7: for positive scale length and at least one fret, the fret
table holds exactly one `(position, radius)` pair per fret 1..num_frets in
fret order: entry `k` (0-based) is the general formula at fret `k+1`
(`position = scale − scale / 2^((k+1)/12)`, radius linearly interpolated
over `position / fretboard_length` with
`fretboard_length = fret_placement(scale, num_frets+1)`) — in particular the
final appended `final_fret_pos`/`final_radius` pair coincides with the
general formula at fret `num_frets`, with no special-case divergence. -/
theorem C7_fret_table (start_radius end_radius scale_length : ℝ) (num_frets : ℤ)
    (hs : 0 < scale_length) (hn : 1 ≤ num_frets) :
    ∃ t, calculate_fretboard start_radius end_radius scale_length num_frets = some t ∧
      t.fretboard_length = fret_placement scale_length (num_frets + 1) ∧
      t.result = (List.range num_frets.toNat).map (fun (k : ℕ) =>
        (fret_placement scale_length ((k : ℤ) + 1),
         start_radius + (fret_placement scale_length ((k : ℤ) + 1)
           / fret_placement scale_length (num_frets + 1))
           * (end_radius - start_radius))) := by
  have hfb : ¬ fret_placement scale_length (num_frets + 1) = 0 := by
    rw [fret_placement_eq_zero_iff]
    push_neg
    exact ⟨hs.ne', by omega⟩
  rw [calculate_fretboard, if_neg hfb]
  refine ⟨_, rfl, rfl, ?_⟩
  obtain ⟨m, hm⟩ : ∃ m, num_frets.toNat = m + 1 := ⟨num_frets.toNat - 1, by omega⟩
  have hcast : ((m:ℕ) : ℤ) + 1 = num_frets := by omega
  rw [hm, List.range_succ, List.map_append, List.map_append, List.map_cons,
    List.map_nil, List.dropLast_concat, List.map_map, List.map_cons, List.map_nil,
    hcast]
  rfl

/-- Witness for C7 at scale length 25.5 with a single fret. -/
theorem C7_witness :
    (0 : ℝ) < 25.5 ∧ (1:ℤ) ≤ 1 ∧
    (∃ t, calculate_fretboard 10 16 (25.5:ℝ) 1 = some t ∧
      t.fretboard_length = fret_placement 25.5 ((1:ℤ) + 1) ∧
      t.result = (List.range (1:ℤ).toNat).map (fun (k : ℕ) =>
        (fret_placement 25.5 ((k : ℤ) + 1),
         10 + (fret_placement 25.5 ((k : ℤ) + 1)
           / fret_placement 25.5 ((1:ℤ) + 1)) * (16 - 10)))) :=
  ⟨by norm_num, le_refl 1, C7_fret_table 10 16 25.5 1 (by norm_num) (le_refl 1)⟩
